import Mathlib

/-!
Shallow embedding of the contributor-cache builder
(src/scripts/cache-contributors.mjs) of the aurora-web repository.

JavaScript objects used as string-keyed dictionaries are modelled as
association lists (first occurrence of a key wins on lookup, assignment
overwrites the first occurrence in place or appends at the end, matching
the insertion-order semantics of JS objects with unique keys).
JS null/undefined values stored in a dictionary are modelled by wrapping
the value type in Option: a stored none models a stored null.

Network and file-system effects are modelled by oracle functions passed
in explicitly: a fetch behaviour maps an attempt index to the outcome of
that HTTP attempt, and the orchestration environment carries the results
the file reads would produce.  Timestamps are milliseconds since the
epoch as integers, matching Date.now / getTime arithmetic.
-/

/-- One record of the static contributors.json input list: the script
only uses the github login field of each entry. -/
structure FeaturedContributorRef where
  github : String
deriving DecidableEq, Repr

/-- Projected GitHub user profile, the field subset kept by
fetchGitHubUser (lines 60-67 of cache-contributors.mjs).  Fields name
and bio may be null in the API response, hence Option. -/
structure GitHubUserProfile where
  login : String
  id : Nat
  avatar_url : String
  html_url : String
  name : Option String
  bio : Option String
deriving DecidableEq, Repr

/-- Projected repository-contributor record, the field subset kept by
fetchRepoContributors (lines 91-97). -/
structure RepoContributorEntry where
  login : String
  id : Nat
  avatar_url : String
  html_url : String
  contributions : Nat
deriving DecidableEq, Repr

/-- A JS object used as a string-keyed dictionary. -/
def JsObj (α : Type) : Type := List (String × α)

/-- Property lookup obj[k]: value of the first entry with key k, none
models undefined. -/
def jsGet {α : Type} (o : List (String × α)) (k : String) : Option α :=
  match o with
  | [] => none
  | (k1, v) :: rest => if k1 = k then some v else jsGet rest k

/-- Property assignment obj[k] = v: overwrite the first entry with key
k in place, or append a new entry at the end. -/
def jsSet {α : Type} (o : List (String × α)) (k : String) (v : α) : List (String × α) :=
  match o with
  | [] => [(k, v)]
  | (k1, v1) :: rest => if k1 = k then (k, v) :: rest else (k1, v1) :: jsSet rest k v

/-- Keys of a JS object, Object.keys. -/
def jsKeys {α : Type} (o : List (String × α)) : List String :=
  o.map Prod.fst

/-- The persisted cache snapshot (contributors-cache.json).  generatedAt
is none when the field is missing or falsy; githubUsers values are
Option because a previously persisted object could hold null entries. -/
structure CacheSnapshot where
  generatedAt : Option Int
  githubUsers : List (String × Option GitHubUserProfile)
  repoContributors : List RepoContributorEntry

/-- CACHE_MAX_AGE_MS = 24 * 60 * 60 * 1000 (line 25). -/
def CACHE_MAX_AGE_MS : Int := 24 * 60 * 60 * 1000

/-- isCacheValid (lines 113-123): the loaded cache (none when the file
is absent or unparsable, per loadExistingCache), checked against the
current time now (ms).  Requires a generatedAt, age below the max age,
and at least one githubUsers entry or repoContributors entry. -/
def isCacheValid (cache : Option CacheSnapshot) (now : Int) : Bool :=
  match cache with
  | none => false
  | some c =>
    match c.generatedAt with
    | none => false
    | some t =>
      let cacheAge : Int := now - t
      let hasData : Bool :=
        decide (0 < (jsKeys c.githubUsers).length) || decide (0 < c.repoContributors.length)
      hasData && decide (cacheAge < CACHE_MAX_AGE_MS)

/-- The githubUsers fallback merge (lines 183-188): iterate over the
entries of the old snapshot object; when the freshly fetched object has
no entry for that login and the old value is truthy (not null), store
the old value.  Newly fetched values are never overwritten. -/
def mergeGithubUsers (githubUsers : List (String × GitHubUserProfile))
    (existingUsers : List (String × Option GitHubUserProfile)) :
    List (String × GitHubUserProfile) :=
  match existingUsers with
  | [] => githubUsers
  | (username, data) :: rest =>
    mergeGithubUsers
      (match jsGet githubUsers username, data with
       | none, some d => jsSet githubUsers username d
       | _, _ => githubUsers)
      rest

/-- The repoContributors fallback (lines 191-194): keep the old list
only when the new fetch produced nothing and the old list is
non-empty. -/
def mergeRepoContributors (repoContributors old : List RepoContributorEntry) :
    List RepoContributorEntry :=
  if repoContributors.length = 0 ∧ 0 < old.length then old else repoContributors

/-- Outcome of one raw HTTP attempt (one call of the global fetch):
either the promise resolves to a response with a status code and an
already-parsed body, or the fetch itself rejects. -/
inductive AttemptOutcome (α : Type) where
  | response (status : Nat) (body : α)
  | netError
deriving DecidableEq, Repr

/-- The errors thrown inside the try block of fetchWithRetry:
rate limiting (status 403, line 41), a non-ok HTTP status (line 44), or
a rejected fetch. -/
inductive FetchError where
  | rateLimited
  | http (status : Nat)
  | network
deriving DecidableEq, Repr

/-- The body of the try block of fetchWithRetry (lines 34-46) for one
attempt: 403 throws rate-limited, any status outside 200-299 (res.ok)
throws an HTTP error, otherwise the parsed body is returned. -/
def attemptStep {α : Type} (o : AttemptOutcome α) : Except FetchError α :=
  match o with
  | .netError => .error .network
  | .response status body =>
    if status = 403 then .error .rateLimited
    else if ¬ (200 ≤ status ∧ status ≤ 299) then .error (.http status)
    else .ok body

/-- Trace of one fetchWithRetry call: how many HTTP attempts were made,
the backoff delays (ms) waited between attempts in order, and the final
result.  A result of ok none models the undefined returned when the
loop body never runs (retries = 0). -/
structure RetryResult (α : Type) where
  attempts : Nat
  delays : List Nat
  result : Except FetchError (Option α)
deriving Repr

/-- The retry loop of fetchWithRetry (lines 32-52): i is the current
0-based attempt index and left the number of iterations remaining
(initially the retries argument).  On failure of the last attempt the
error propagates (line 48); otherwise the loop sleeps 1000 * (i + 1) ms
(line 50) and retries. -/
def fetchWithRetryGo {α : Type} (behavior : Nat → AttemptOutcome α) (i : Nat) :
    Nat → RetryResult α
  | 0 => { attempts := 0, delays := [], result := .ok none }
  | left + 1 =>
    match attemptStep (behavior i) with
    | .ok b => { attempts := 1, delays := [], result := .ok (some b) }
    | .error e =>
      match left with
      | 0 => { attempts := 1, delays := [], result := .error e }
      | next + 1 =>
        let rest := fetchWithRetryGo behavior (i + 1) (next + 1)
        { attempts := rest.attempts + 1
          delays := 1000 * (i + 1) :: rest.delays
          result := rest.result }

/-- fetchWithRetry (line 31): run the loop from attempt index 0; the
script always uses the default retries = 3. -/
def fetchWithRetry {α : Type} (behavior : Nat → AttemptOutcome α) (retries : Nat) :
    RetryResult α :=
  fetchWithRetryGo behavior 0 retries

/-- fetchGitHubUser (lines 55-72): fetch with 3 retries and project the
response body down to the profile field subset; any thrown error (and
the undefined body case, whose field access throws) is caught and
yields null, modelled as none.  The API response is modelled by its
kept field subset, so the projection copies the fields. -/
def fetchGitHubUser (behavior : Nat → AttemptOutcome GitHubUserProfile) :
    Option GitHubUserProfile :=
  match (fetchWithRetry behavior 3).result with
  | .ok (some d) =>
    some { login := d.login, id := d.id, avatar_url := d.avatar_url,
           html_url := d.html_url, name := d.name, bio := d.bio }
  | _ => none

/-- perPage = 100 (line 79). -/
def perPage : Nat := 100

/-- The while loop of fetchRepoContributors (lines 81-89), over an
oracle fetchPage giving the settled result of the fetchWithRetry call
for each page number (error when all retries failed, ok none for an
undefined body).  Returns the list of page numbers requested in order
together with the accumulated contributor list, or the propagated
error.  fuel bounds the number of iterations; the source loop is
unbounded, and every theorem below supplies sufficient fuel. -/
def repoPagesLoop (fetchPage : Nat → Except FetchError (Option (List RepoContributorEntry))) :
    Nat → Nat → List RepoContributorEntry →
    List Nat × Except FetchError (List RepoContributorEntry)
  | 0, _, acc => ([], .ok acc)
  | fuel + 1, page, acc =>
    match fetchPage page with
    | .error e => ([page], .error e)
    | .ok none => ([page], .ok acc)
    | .ok (some data) =>
      if data.length = 0 then ([page], .ok acc)
      else if data.length < perPage then ([page], .ok (acc ++ data))
      else
        let rest := repoPagesLoop fetchPage fuel (page + 1) (acc ++ data)
        (page :: rest.1, rest.2)

/-- fetchRepoContributors (lines 74-102): run the pagination loop from
page 1 with an empty accumulator; any error escaping the loop is caught
and yields the empty list (lines 98-101).  Records are modelled
already projected to the kept field subset (lines 91-97).  The first
component is the list of page numbers requested. -/
def fetchRepoContributors
    (fetchPage : Nat → Except FetchError (Option (List RepoContributorEntry)))
    (fuel : Nat) : List Nat × List RepoContributorEntry :=
  match repoPagesLoop fetchPage fuel 1 [] with
  | (reqs, .ok l) => (reqs, l)
  | (reqs, .error _) => (reqs, [])

/-- batchSize = 10 (line 152). -/
def batchSize : Nat := 10

/-- The forEach over one batch (lines 159-163): c is the login at
global input index k; when the fetch result for index k is truthy it is
assigned into the accumulating githubUsers object, in index order. -/
def applyBatch (acc : List (String × GitHubUserProfile)) (batch : List String)
    (f : Nat → Option GitHubUserProfile) (k : Nat) :
    List (String × GitHubUserProfile) :=
  match batch with
  | [] => acc
  | c :: rest =>
    applyBatch
      (match f k with
       | some p => jsSet acc c p
       | none => acc)
      rest f (k + 1)

/-- The batch loop of main (lines 153-173): slice off batchSize logins
at a time, settle all their fetches (f k is the settled result of the
fetch for global input index k), assign the truthy results, and
continue with the rest.  Returns the accumulated githubUsers object and
the number of batch stages executed. -/
def runBatches (acc : List (String × GitHubUserProfile)) (contributors : List String)
    (f : Nat → Option GitHubUserProfile) (i : Nat) :
    List (String × GitHubUserProfile) × Nat :=
  match contributors with
  | [] => (acc, 0)
  | c :: cs =>
    let acc2 := applyBatch acc ((c :: cs).take batchSize) f i
    let rest := runBatches acc2 ((c :: cs).drop batchSize) f (i + batchSize)
    (rest.1, rest.2 + 1)
termination_by contributors.length
decreasing_by
  simp [List.length_drop, batchSize]
  omega

/-- Environment of one run of main: the force flag, the current time,
the parsed previous snapshot as loadExistingCache returns it (none on a
missing or unparsable file), the result of reading and parsing
contributors.json (error when the read or parse throws), and the fetch
oracles.  userBehavior k is the per-attempt behaviour of the profile
fetch for the contributor at input index k; pageFetch is the settled
per-page result used by the pagination loop; pageFuel bounds the
pagination loop. -/
structure Env where
  force : Bool
  now : Int
  existingCache : Option CacheSnapshot
  contributorsData : Except String (List FeaturedContributorRef)
  userBehavior : Nat → Nat → AttemptOutcome GitHubUserProfile
  pageFetch : Nat → Except FetchError (Option (List RepoContributorEntry))
  pageFuel : Nat

/-- How a run of main ends: the early return when the cache is valid
(line 129), a completed run that wrote the given snapshot (line 205),
or an error propagated out of main into the catch handler (line 213). -/
inductive MainOutcome where
  | skipped
  | completed (cache : CacheSnapshot)
  | fatal (error : String)

/-- Result of one run: the outcome together with the number of
fetchWithRetry invocations performed (one per featured contributor plus
one per contributor page requested). -/
structure MainResult where
  outcome : MainOutcome
  fetchCalls : Nat

/-- The snapshot written by the run, if any: the file is written only
on the completed path (line 205). -/
def MainResult.written (r : MainResult) : Option CacheSnapshot :=
  match r.outcome with
  | .completed c => some c
  | _ => none

/-- main (lines 125-211): skip when the cache is valid and force is not
set; then load the fallback cache, read contributors.json (fatal on
failure, before any network traffic), fetch the featured users in
batches, fetch the repo contributors, apply both fallback merges when
an old snapshot exists, and build the written snapshot with a fresh
generatedAt.  The values of the written githubUsers object are wrapped
in some since only truthy values are ever assigned. -/
def mainRun (env : Env) : MainResult :=
  if !env.force && isCacheValid env.existingCache env.now then
    { outcome := .skipped, fetchCalls := 0 }
  else
    match env.contributorsData with
    | .error e => { outcome := .fatal e, fetchCalls := 0 }
    | .ok contributors =>
      let logins := contributors.map FeaturedContributorRef.github
      let users := runBatches [] logins (fun k => fetchGitHubUser (env.userBehavior k)) 0
      let pages := fetchRepoContributors env.pageFetch env.pageFuel
      let merged :=
        match env.existingCache with
        | none => (users.1, pages.2)
        | some old =>
          (mergeGithubUsers users.1 old.githubUsers,
           mergeRepoContributors pages.2 old.repoContributors)
      { outcome := .completed
          { generatedAt := some env.now
            githubUsers := merged.1.map (fun p => (p.1, some p.2))
            repoContributors := merged.2 }
        fetchCalls := logins.length + pages.1.length }

/-- Process exit code of the script: the catch handler around main
calls process.exit(1) (line 215); otherwise node exits 0. -/
def scriptExitCode (env : Env) : Nat :=
  match (mainRun env).outcome with
  | .fatal _ => 1
  | _ => 0

/-! Concrete sample data used to instantiate the theorems below. -/

/-- Sample profile for login A. -/
def sampleProfileA : GitHubUserProfile :=
  { login := "A", id := 1, avatar_url := "a1", html_url := "u1", name := none, bio := none }

/-- A second, different sample profile for login A (a fresher fetch). -/
def sampleProfileA2 : GitHubUserProfile :=
  { login := "A", id := 1, avatar_url := "a2", html_url := "u2", name := some "Ann", bio := none }

/-- Sample profile for login B. -/
def sampleProfileB : GitHubUserProfile :=
  { login := "B", id := 2, avatar_url := "b1", html_url := "v1", name := none, bio := none }

/-- Sample repository-contributor record. -/
def sampleEntry : RepoContributorEntry :=
  { login := "x", id := 7, avatar_url := "ax", html_url := "ux", contributions := 3 }

/-- Mock paginated API with page sizes 100, 100, 37. -/
def samplePagesA : Nat → List RepoContributorEntry := fun n =>
  if n = 1 then List.replicate 100 sampleEntry
  else if n = 2 then List.replicate 100 sampleEntry
  else if n = 3 then List.replicate 37 sampleEntry
  else []

/-- Mock paginated API with page sizes 100, 0. -/
def samplePagesB : Nat → List RepoContributorEntry := fun n =>
  if n = 1 then List.replicate 100 sampleEntry else []

/-- Twelve distinct sample logins (two batches of sizes 10 and 2). -/
def sampleNames : List String :=
  ["a", "b", "c", "d", "e", "f", "g", "h", "i", "j", "k", "l"]

/-- Sample per-contributor fetch behaviour: the fetch for input index 3
always rejects, every other fetch succeeds immediately with a profile
carrying the index as its id. -/
def sampleUserBehavior : Nat → Nat → AttemptOutcome GitHubUserProfile := fun k _ =>
  if k = 3 then .netError
  else .response 200
    { login := "A", id := k, avatar_url := "", html_url := "", name := none, bio := none }

/-- A fresh, non-empty sample snapshot. -/
def sampleSnapshot : CacheSnapshot :=
  { generatedAt := some 1000
    githubUsers := [("A", some sampleProfileA)]
    repoContributors := [] }

/-- Sample environment whose contributors.json read fails and whose
force flag is set. -/
def sampleEnvFatal : Env :=
  { force := true
    now := 2000
    existingCache := some sampleSnapshot
    contributorsData := .error "ENOENT"
    userBehavior := sampleUserBehavior
    pageFetch := fun p => .ok (some (samplePagesB p))
    pageFuel := 10 }

/-- Sample environment with a fresh valid cache and no force flag. -/
def sampleEnvSkip : Env :=
  { force := false
    now := 2000
    existingCache := some sampleSnapshot
    contributorsData := .ok [{ github := "A" }]
    userBehavior := sampleUserBehavior
    pageFetch := fun p => .ok (some (samplePagesB p))
    pageFuel := 10 }

/-! Helper lemmas about dictionary lookup and assignment. -/

theorem jsGet_jsSet_self {α : Type} (o : List (String × α)) (k : String) (v : α) :
    jsGet (jsSet o k v) k = some v := by
  induction o with
  | nil => simp [jsSet, jsGet]
  | cons hd t ih =>
    obtain ⟨k1, v1⟩ := hd
    by_cases hk : k1 = k
    · simp [jsSet, hk, jsGet]
    · simp [jsSet, hk, jsGet, ih]

theorem jsGet_jsSet_ne {α : Type} (o : List (String × α)) (k k2 : String) (v : α)
    (hne : k2 ≠ k) : jsGet (jsSet o k v) k2 = jsGet o k2 := by
  have hne2 : ¬ k = k2 := fun h => hne h.symm
  induction o with
  | nil => simp [jsSet, jsGet, hne2]
  | cons hd t ih =>
    obtain ⟨k1, v1⟩ := hd
    by_cases hk : k1 = k
    · subst hk
      simp [jsSet, jsGet, hne2]
    · simp [jsSet, hk, jsGet, ih]

theorem jsGet_eq_none_of_not_mem {α : Type} (o : List (String × α)) (k : String)
    (h : k ∉ jsKeys o) : jsGet o k = none := by
  induction o with
  | nil => simp [jsGet]
  | cons hd t ih =>
    obtain ⟨k1, v1⟩ := hd
    have hc : jsKeys ((k1, v1) :: t) = k1 :: jsKeys t := rfl
    rw [hc, List.mem_cons] at h
    push_neg at h
    have h1 : ¬ k1 = k := fun hh => h.1 hh.symm
    simp [jsGet, h1, ih h.2]

/-- Characterization of the githubUsers fallback merge on objects with
unique keys: a fresh entry wins, otherwise a truthy old entry is used,
otherwise the login is absent. -/
theorem mergeGithubUsers_get
    (oldUsers : List (String × Option GitHubUserProfile))
    (newUsers : List (String × GitHubUserProfile))
    (hnd : (jsKeys oldUsers).Nodup) (k : String) :
    jsGet (mergeGithubUsers newUsers oldUsers) k =
      (jsGet newUsers k).or ((jsGet oldUsers k).bind id) := by
  induction oldUsers generalizing newUsers with
  | nil => simp [mergeGithubUsers, jsGet]
  | cons hd t ih =>
    obtain ⟨u, d⟩ := hd
    have hkeys : jsKeys ((u, d) :: t) = u :: jsKeys t := rfl
    rw [hkeys] at hnd
    have hu : u ∉ jsKeys t := (List.nodup_cons.mp hnd).1
    have hndt : (jsKeys t).Nodup := (List.nodup_cons.mp hnd).2
    by_cases hk : u = k
    · subst hk
      have ht : jsGet t u = none := jsGet_eq_none_of_not_mem t u hu
      rcases hnew : jsGet newUsers u with _ | v
      · rcases d with _ | p
        · rw [show mergeGithubUsers newUsers ((u, none) :: t) = mergeGithubUsers newUsers t
            from by simp [mergeGithubUsers, hnew]]
          rw [ih _ hndt, ht, hnew]
          simp [jsGet, Option.or]
        · rw [show mergeGithubUsers newUsers ((u, some p) :: t) =
              mergeGithubUsers (jsSet newUsers u p) t
            from by simp [mergeGithubUsers, hnew]]
          rw [ih _ hndt, ht, jsGet_jsSet_self]
          simp [jsGet, Option.or]
      · rcases d with _ | p
        · rw [show mergeGithubUsers newUsers ((u, none) :: t) = mergeGithubUsers newUsers t
            from by simp [mergeGithubUsers, hnew]]
          rw [ih _ hndt, ht, hnew]
          simp [jsGet, Option.or]
        · rw [show mergeGithubUsers newUsers ((u, some p) :: t) = mergeGithubUsers newUsers t
            from by simp [mergeGithubUsers, hnew]]
          rw [ih _ hndt, ht, hnew]
          simp [jsGet, Option.or]
    · have hskip : jsGet ((u, d) :: t) k = jsGet t k := by simp [jsGet, hk]
      rw [hskip]
      rcases hnew : jsGet newUsers u with _ | v
      · rcases d with _ | p
        · rw [show mergeGithubUsers newUsers ((u, none) :: t) = mergeGithubUsers newUsers t
            from by simp [mergeGithubUsers, hnew]]
          rw [ih _ hndt]
        · rw [show mergeGithubUsers newUsers ((u, some p) :: t) =
              mergeGithubUsers (jsSet newUsers u p) t
            from by simp [mergeGithubUsers, hnew]]
          rw [ih _ hndt, jsGet_jsSet_ne _ _ _ _ (fun h => hk h.symm)]
      · rcases d with _ | p
        · rw [show mergeGithubUsers newUsers ((u, none) :: t) = mergeGithubUsers newUsers t
            from by simp [mergeGithubUsers, hnew]]
          rw [ih _ hndt]
        · rw [show mergeGithubUsers newUsers ((u, some p) :: t) = mergeGithubUsers newUsers t
            from by simp [mergeGithubUsers, hnew]]
          rw [ih _ hndt]

/-- C1: fallback merge for featured-user profiles.  For every login
present in the old snapshot (with a profile) but absent from the newly
fetched mapping, the old entry is carried forward unchanged into the
merged mapping, and for every login present in the new mapping the new
entry takes precedence. -/
theorem merge_users_fallback_correct
    (newUsers : List (String × GitHubUserProfile))
    (oldUsers : List (String × Option GitHubUserProfile))
    (hnd : (jsKeys oldUsers).Nodup) (login : String) :
    (∀ p, jsGet newUsers login = some p →
      jsGet (mergeGithubUsers newUsers oldUsers) login = some p) ∧
    (jsGet newUsers login = none → ∀ p, jsGet oldUsers login = some (some p) →
      jsGet (mergeGithubUsers newUsers oldUsers) login = some p) := by
  constructor
  · intro p hp
    rw [mergeGithubUsers_get oldUsers newUsers hnd login, hp]
    rfl
  · intro hn p hp
    rw [mergeGithubUsers_get oldUsers newUsers hnd login, hn, hp]
    rfl

/-- C1 witness: old cache holding A and B merged with a new fetch
holding only a fresher A yields the fresher A and the old B. -/
theorem merge_users_fallback_correct_witness :
    jsGet (mergeGithubUsers [("A", sampleProfileA2)]
      [("A", some sampleProfileA), ("B", some sampleProfileB)]) "A" = some sampleProfileA2 ∧
    jsGet (mergeGithubUsers [("A", sampleProfileA2)]
      [("A", some sampleProfileA), ("B", some sampleProfileB)]) "B" = some sampleProfileB := by
  constructor
  · exact (merge_users_fallback_correct _ _ (by decide) "A").1 sampleProfileA2 (by decide)
  · exact (merge_users_fallback_correct _ _ (by decide) "B").2 (by decide) sampleProfileB (by decide)

/-- C2: fallback merge for repository contributors.  An empty new fetch
with a non-empty old snapshot yields the old sequence verbatim; a
non-empty new fetch fully replaces the old sequence. -/
theorem merge_repo_fallback_correct (fresh old : List RepoContributorEntry) :
    (fresh.length = 0 → 0 < old.length → mergeRepoContributors fresh old = old) ∧
    (0 < fresh.length → mergeRepoContributors fresh old = fresh) := by
  constructor
  · intro h1 h2
    simp [mergeRepoContributors, h1, h2]
  · intro h
    rw [mergeRepoContributors, if_neg]
    exact fun hc => absurd hc.1 (by omega)

/-- C2 witness: 5 old entries survive a 0-entry fetch verbatim, and a
2-entry fetch replaces them exactly. -/
theorem merge_repo_fallback_correct_witness :
    mergeRepoContributors [] (List.replicate 5 sampleEntry) = List.replicate 5 sampleEntry ∧
    mergeRepoContributors (List.replicate 2 sampleEntry) (List.replicate 5 sampleEntry) =
      List.replicate 2 sampleEntry := by
  exact ⟨(merge_repo_fallback_correct _ _).1 rfl (by simp),
         (merge_repo_fallback_correct _ _).2 (by simp)⟩

/-- C3: cache validity.  A snapshot aged at least the max age, a
snapshot with both collections empty, and an absent snapshot are all
invalid; a snapshot within the max age holding at least one entry is
valid; and with the force flag set the run never takes the skip path,
whatever the validity verdict. -/
theorem cache_validity_correct :
    (∀ (c : CacheSnapshot) (now t : Int), c.generatedAt = some t →
      CACHE_MAX_AGE_MS ≤ now - t → isCacheValid (some c) now = false) ∧
    (∀ (c : CacheSnapshot) (now : Int), c.githubUsers = [] → c.repoContributors = [] →
      isCacheValid (some c) now = false) ∧
    (∀ now : Int, isCacheValid none now = false) ∧
    (∀ (c : CacheSnapshot) (now t : Int), c.generatedAt = some t →
      now - t < CACHE_MAX_AGE_MS →
      (c.githubUsers ≠ [] ∨ c.repoContributors ≠ []) → isCacheValid (some c) now = true) ∧
    (∀ env : Env, env.force = true → (mainRun env).outcome ≠ MainOutcome.skipped) := by
  refine ⟨?_, ?_, ?_, ?_, ?_⟩
  · intro c now t hgen hage
    have hd : decide (now - t < CACHE_MAX_AGE_MS) = false := decide_eq_false (by omega)
    simp [isCacheValid, hgen, hd]
  · intro c now hu hr
    rcases hgen : c.generatedAt with _ | t
    · simp [isCacheValid, hgen]
    · simp [isCacheValid, hgen, hu, hr, jsKeys]
  · intro now
    simp [isCacheValid]
  · intro c now t hgen hage hne
    rcases hne with h | h
    · have hpos : 0 < (jsKeys c.githubUsers).length := by
        simp [jsKeys]
        exact List.length_pos.mpr h
      simp [isCacheValid, hgen, hpos, hage]
    · have hpos : 0 < c.repoContributors.length := List.length_pos.mpr h
      simp [isCacheValid, hgen, hpos, hage]
  · intro env hf
    have hcond : (!env.force && isCacheValid env.existingCache env.now) = false := by
      simp [hf]
    rcases hcd : env.contributorsData with e | cs <;>
      simp [mainRun, hcond, hcd]

/-- C3 witness: the four validity verdicts at concrete snapshots and a
forced run at a concrete environment that does not skip. -/
theorem cache_validity_correct_witness :
    isCacheValid (some sampleSnapshot) (1000 + CACHE_MAX_AGE_MS) = false ∧
    isCacheValid
      (some { generatedAt := some 1000, githubUsers := [], repoContributors := [] }) 1500
      = false ∧
    isCacheValid none 1500 = false ∧
    isCacheValid (some sampleSnapshot) 2000 = true ∧
    (mainRun sampleEnvFatal).outcome ≠ MainOutcome.skipped := by
  refine ⟨?_, ?_, ?_, ?_, ?_⟩
  · exact cache_validity_correct.1 sampleSnapshot _ 1000 rfl (by omega)
  · exact cache_validity_correct.2.1 _ 1500 rfl rfl
  · exact cache_validity_correct.2.2.1 1500
  · exact cache_validity_correct.2.2.2.1 sampleSnapshot 2000 1000 rfl (by decide)
      (Or.inl (by decide))
  · exact cache_validity_correct.2.2.2.2 sampleEnvFatal rfl

/-- C4: retry bound and linear backoff.  When every attempt fails, the
3-retry fetch makes exactly 3 attempts, waits 1000 ms times the 0-based
attempt index before attempts 1 and 2, and propagates the error of the
final attempt. -/
theorem retry_bound_correct (α : Type) (behavior : Nat → AttemptOutcome α)
    (errs : Nat → FetchError)
    (hfail : ∀ i, attemptStep (behavior i) = .error (errs i)) :
    (fetchWithRetry behavior 3).attempts = 3 ∧
    (fetchWithRetry behavior 3).delays = [1000 * 1, 1000 * 2] ∧
    (fetchWithRetry behavior 3).result = .error (errs 2) := by
  have e0 := hfail 0
  have e1 := hfail 1
  have e2 := hfail 2
  simp [fetchWithRetry, fetchWithRetryGo, e0, e1, e2]

/-- C4 witness: a fetch whose every attempt rejects at the network
level. -/
theorem retry_bound_correct_witness :
    (fetchWithRetry (fun _ => (AttemptOutcome.netError : AttemptOutcome GitHubUserProfile))
      3).attempts = 3 ∧
    (fetchWithRetry (fun _ => (AttemptOutcome.netError : AttemptOutcome GitHubUserProfile))
      3).delays = [1000 * 1, 1000 * 2] ∧
    (fetchWithRetry (fun _ => (AttemptOutcome.netError : AttemptOutcome GitHubUserProfile))
      3).result = .error FetchError.network :=
  retry_bound_correct GitHubUserProfile _ (fun _ => FetchError.network) (fun _ => rfl)

/-- C7: fatal-error atomicity.  When reading or parsing the featured
contributor input file fails (and the run does not take the skip path),
the run ends fatally with that error, exits non-zero, performs no fetch
and writes no cache file. -/
theorem fatal_input_atomicity (env : Env) (e : String)
    (herr : env.contributorsData = .error e)
    (hproceed : env.force = true ∨ isCacheValid env.existingCache env.now = false) :
    (mainRun env).outcome = MainOutcome.fatal e ∧
    (mainRun env).written = none ∧
    scriptExitCode env = 1 ∧
    (mainRun env).fetchCalls = 0 := by
  have hcond : (!env.force && isCacheValid env.existingCache env.now) = false := by
    rcases hproceed with h | h <;> simp [h]
  simp [mainRun, scriptExitCode, MainResult.written, hcond, herr]

/-- C7 witness: a concrete forced run whose contributors.json read
fails. -/
theorem fatal_input_atomicity_witness :
    (mainRun sampleEnvFatal).outcome = MainOutcome.fatal "ENOENT" ∧
    (mainRun sampleEnvFatal).written = none ∧
    scriptExitCode sampleEnvFatal = 1 ∧
    (mainRun sampleEnvFatal).fetchCalls = 0 :=
  fatal_input_atomicity sampleEnvFatal "ENOENT" rfl (Or.inl rfl)

/-- C9: a run over a valid cache without the force flag skips: no fetch
is performed, no cache file is written, and the run exits 0 reporting
the skip. -/
theorem skip_run_frame (env : Env) (hf : env.force = false)
    (hv : isCacheValid env.existingCache env.now = true) :
    (mainRun env).outcome = MainOutcome.skipped ∧
    (mainRun env).fetchCalls = 0 ∧
    (mainRun env).written = none ∧
    scriptExitCode env = 0 := by
  have hcond : (!env.force && isCacheValid env.existingCache env.now) = true := by
    simp [hf, hv]
  simp [mainRun, scriptExitCode, MainResult.written, hcond]

/-- C9 witness: a concrete unforced run over a fresh non-empty
snapshot. -/
theorem skip_run_frame_witness :
    (mainRun sampleEnvSkip).outcome = MainOutcome.skipped ∧
    (mainRun sampleEnvSkip).fetchCalls = 0 ∧
    (mainRun sampleEnvSkip).written = none ∧
    scriptExitCode sampleEnvSkip = 0 :=
  skip_run_frame sampleEnvSkip rfl (by decide)

/-- C10: a null value stored in the old snapshot is not carried forward
by the featured-user merge, and consequently every githubUsers value in
a snapshot written by a run is a (non-null) profile. -/
theorem merge_null_not_carried
    (newUsers : List (String × GitHubUserProfile))
    (oldUsers : List (String × Option GitHubUserProfile))
    (hnd : (jsKeys oldUsers).Nodup) (login : String) :
    (jsGet newUsers login = none → jsGet oldUsers login = some none →
      jsGet (mergeGithubUsers newUsers oldUsers) login = none) ∧
    (∀ (env : Env) (c : CacheSnapshot), (mainRun env).written = some c →
      ∀ kv ∈ c.githubUsers, kv.2.isSome) := by
  constructor
  · intro hn hp
    rw [mergeGithubUsers_get oldUsers newUsers hnd login, hn, hp]
    rfl
  · intro env c hw kv hkv
    by_cases hcond : (!env.force && isCacheValid env.existingCache env.now) = true
    · simp [mainRun, hcond, MainResult.written] at hw
    · rcases hcd : env.contributorsData with e | cs
      · simp [mainRun, hcond, hcd, MainResult.written] at hw
      · simp only [mainRun, hcond, hcd, Bool.false_eq_true, if_false,
          MainResult.written] at hw
        obtain rfl := Option.some.inj hw
        simp only [List.mem_map] at hkv
        obtain ⟨x, -, rfl⟩ := hkv
        rfl

/-- C10 witness: an old snapshot with a null entry for A and a profile
for B, merged into an empty fresh fetch: A is dropped. -/
theorem merge_null_not_carried_witness :
    jsGet (mergeGithubUsers [] [("A", none), ("B", some sampleProfileB)]) "A" = none :=
  (merge_null_not_carried [] [("A", none), ("B", some sampleProfileB)]
    (by decide) "A").1 rfl rfl

/-- The pagination loop over an always-resolving page oracle: when
pages start..(start+n-1) are exactly full (100 records) and page
start+n is short, the loop requests exactly pages start..(start+n) in
order and accumulates their concatenation. -/
theorem repoPagesLoop_full (pages : Nat → List RepoContributorEntry) :
    ∀ (n fuel start : Nat) (acc : List RepoContributorEntry),
      (∀ j, start ≤ j → j < start + n → (pages j).length = 100) →
      (pages (start + n)).length < 100 →
      n + 1 ≤ fuel →
      repoPagesLoop (fun p => .ok (some (pages p))) fuel start acc =
        (List.range' start (n + 1),
         .ok (acc ++ (List.map pages (List.range' start (n + 1))).flatten)) := by
  intro n
  induction n with
  | zero =>
    intro fuel start acc _ hlast hfuel
    rcases fuel with _ | f
    · omega
    · rw [Nat.add_zero] at hlast
      by_cases h0 : (pages start).length = 0
      · have hnil : pages start = [] := List.eq_nil_of_length_eq_zero h0
        simp [repoPagesLoop, h0, hnil, List.range']
      · have hlt : (pages start).length < perPage := by simpa [perPage] using hlast
        simp [repoPagesLoop, h0, hlt, List.range']
  | succ n ih =>
    intro fuel start acc hfull hlast hfuel
    rcases fuel with _ | f
    · omega
    · have hstart : (pages start).length = 100 := hfull start (le_refl start) (by omega)
      have h0 : ¬ (pages start).length = 0 := by omega
      have hlt : ¬ (pages start).length < perPage := by simp [perPage]; omega
      have hrec := ih f (start + 1) (acc ++ pages start)
        (fun j h1 h2 => hfull j (by omega) (by omega))
        (by have := hlast; rw [show start + 1 + n = start + (n + 1) from by omega]; exact this)
        (by omega)
      simp only [repoPagesLoop, h0, hlt, if_false, hrec]
      rw [List.range'_succ start (n + 1) 1]
      simp [List.append_assoc]

/-- C5: pagination termination.  Over a mock API whose pages
1..n are exactly full and whose page n+1 is short (empty or fewer than
100 records), the repository-contributor fetch requests exactly the
pages 1..(n+1) in increasing order and returns their concatenation: the
loop stops at the first empty or short page. -/
theorem pagination_termination_correct (pages : Nat → List RepoContributorEntry)
    (n fuel : Nat)
    (hfull : ∀ j, 1 ≤ j → j ≤ n → (pages j).length = 100)
    (hlast : (pages (n + 1)).length < 100)
    (hfuel : n + 1 ≤ fuel) :
    fetchRepoContributors (fun p => .ok (some (pages p))) fuel =
      (List.range' 1 (n + 1), (List.map pages (List.range' 1 (n + 1))).flatten) := by
  rw [fetchRepoContributors,
    repoPagesLoop_full pages n fuel 1 []
      (fun j h1 h2 => hfull j h1 (by omega))
      (by rw [show 1 + n = n + 1 from by omega]; exact hlast)
      hfuel]
  simp

/-- C5 witness: page sizes [100, 100, 37] make exactly the 3 requests
1, 2, 3; page sizes [100, 0] make exactly the 2 requests 1, 2. -/
theorem pagination_termination_correct_witness :
    (fetchRepoContributors (fun p => .ok (some (samplePagesA p))) 3).1 = [1, 2, 3] ∧
    (fetchRepoContributors (fun p => .ok (some (samplePagesB p))) 2).1 = [1, 2] := by
  constructor
  · have h := pagination_termination_correct samplePagesA 2 3
      (by intro j h1 h2; interval_cases j <;> simp [samplePagesA])
      (by simp [samplePagesA]) (by omega)
    rw [h]
    rfl
  · have h := pagination_termination_correct samplePagesB 1 2
      (by intro j h1 h2; interval_cases j; simp [samplePagesB])
      (by simp [samplePagesB]) (by omega)
    rw [h]
    rfl

theorem applyBatch_get_not_mem (f : Nat → Option GitHubUserProfile) (c : String) :
    ∀ (batch : List String) (acc : List (String × GitHubUserProfile)) (k : Nat),
      c ∉ batch → jsGet (applyBatch acc batch f k) c = jsGet acc c := by
  intro batch
  induction batch with
  | nil =>
    intro acc k _
    simp [applyBatch]
  | cons b t ih =>
    intro acc k h
    rw [List.mem_cons] at h
    push_neg at h
    rcases hfk : f k with _ | p
    · simp only [applyBatch, hfk]
      exact ih _ _ h.2
    · simp only [applyBatch, hfk]
      rw [ih _ _ h.2, jsGet_jsSet_ne _ _ _ _ h.1]

theorem applyBatch_get (f : Nat → Option GitHubUserProfile) :
    ∀ (batch : List String) (acc : List (String × GitHubUserProfile)) (k j : Nat)
      (hj : j < batch.length), batch.Nodup →
      jsGet (applyBatch acc batch f k) batch[j] =
        match f (k + j) with
        | some p => some p
        | none => jsGet acc batch[j] := by
  intro batch
  induction batch with
  | nil =>
    intro acc k j hj _
    exact absurd hj (by simp)
  | cons b t ih =>
    intro acc k j hj hnd
    have hb : b ∉ t := (List.nodup_cons.mp hnd).1
    have hndt : t.Nodup := (List.nodup_cons.mp hnd).2
    cases j with
    | zero =>
      rw [List.getElem_cons_zero]
      rcases hfk : f k with _ | p
      · simp only [applyBatch, hfk]
        rw [applyBatch_get_not_mem f b t _ _ hb]
        simp [hfk]
      · simp only [applyBatch, hfk]
        rw [applyBatch_get_not_mem f b t _ _ hb, jsGet_jsSet_self]
        simp [hfk]
    | succ j2 =>
      have hj2 : j2 < t.length := by
        rw [List.length_cons] at hj
        omega
      rw [List.getElem_cons_succ]
      have hne : t[j2] ≠ b := fun hh => hb (hh ▸ List.getElem_mem hj2)
      have harr : k + 1 + j2 = k + (j2 + 1) := by omega
      rcases hfk : f k with _ | p
      · simp only [applyBatch, hfk]
        rw [ih _ _ j2 hj2 hndt, harr]
      · simp only [applyBatch, hfk]
        rw [ih _ _ j2 hj2 hndt, harr, jsGet_jsSet_ne _ _ _ _ hne]

/-- Arithmetic step for the batch-stage count: one stage plus the
stages of the remaining list equals the rounded-up division. -/
theorem ceilDiv10_step (L : Nat) (h : 1 ≤ L) : (L - 10 + 9) / 10 + 1 = (L + 9) / 10 := by
  by_cases h10 : 10 ≤ L
  · have hsplit : L + 9 = (L - 10 + 9) + 10 := by omega
    rw [hsplit, Nat.add_div_right _ (by norm_num)]
  · have hL : L - 10 = 0 := by omega
    have h2 : (L + 9) / 10 = 1 := Nat.div_eq_of_lt_le (by omega) (by omega)
    rw [hL, h2]

theorem runBatches_count (f : Nat → Option GitHubUserProfile) :
    ∀ (m : Nat) (cs : List String) (acc : List (String × GitHubUserProfile)) (i : Nat),
      cs.length ≤ m → (runBatches acc cs f i).2 = (cs.length + 9) / 10 := by
  intro m
  induction m with
  | zero =>
    intro cs acc i h
    have hnil : cs = [] := List.eq_nil_of_length_eq_zero (by omega)
    subst hnil
    simp [runBatches]
  | succ m ih =>
    intro cs acc i h
    cases cs with
    | nil => simp [runBatches]
    | cons c t =>
      have hlc : (c :: t).length = t.length + 1 := List.length_cons c t
      have hdl : ((c :: t).drop batchSize).length = t.length + 1 - 10 := by
        simp [List.length_drop, hlc, batchSize]
      rw [hlc] at h
      simp only [runBatches]
      rw [ih _ _ _ (by rw [hdl]; omega), hdl, hlc]
      exact ceilDiv10_step (t.length + 1) (by omega)

theorem runBatches_get_not_mem (f : Nat → Option GitHubUserProfile) (c : String) :
    ∀ (m : Nat) (cs : List String) (acc : List (String × GitHubUserProfile)) (i : Nat),
      cs.length ≤ m → c ∉ cs →
      jsGet (runBatches acc cs f i).1 c = jsGet acc c := by
  intro m
  induction m with
  | zero =>
    intro cs acc i h _
    have hnil : cs = [] := List.eq_nil_of_length_eq_zero (by omega)
    subst hnil
    simp [runBatches]
  | succ m ih =>
    intro cs acc i h hm
    cases cs with
    | nil => simp [runBatches]
    | cons a t =>
      have hbm : c ∉ (a :: t).take batchSize :=
        fun h2 => hm ((List.take_sublist _ _).subset h2)
      have hdm : c ∉ (a :: t).drop batchSize :=
        fun h2 => hm ((List.drop_sublist _ _).subset h2)
      have hdlen : ((a :: t).drop batchSize).length ≤ m := by
        rw [List.length_drop, List.length_cons]
        rw [List.length_cons] at h
        simp only [batchSize]
        omega
      simp only [runBatches]
      rw [ih _ _ _ hdlen hdm, applyBatch_get_not_mem f c _ _ _ hbm]

/-- On a duplicate-free input list with an empty initial accumulator
context, the batch loop attaches to the login at input position j
exactly the settled fetch result of position j (or leaves the
accumulator value when that fetch failed). -/
theorem runBatches_get (f : Nat → Option GitHubUserProfile) :
    ∀ (m : Nat) (cs : List String), cs.length ≤ m → cs.Nodup →
      ∀ (acc : List (String × GitHubUserProfile)) (i j : Nat) (hj : j < cs.length),
        jsGet (runBatches acc cs f i).1 cs[j] =
          match f (i + j) with
          | some p => some p
          | none => jsGet acc cs[j] := by
  intro m
  induction m with
  | zero =>
    intro cs h _ acc i j hj
    exact absurd hj (by omega)
  | succ m ih =>
    intro cs h hnd acc i j hj
    cases cs with
    | nil => exact absurd hj (by simp)
    | cons a t =>
      have hnb : ((a :: t).take batchSize).Nodup :=
        List.Nodup.sublist (List.take_sublist _ _) hnd
      have hnr : ((a :: t).drop batchSize).Nodup :=
        List.Nodup.sublist (List.drop_sublist _ _) hnd
      have hdisj : ((a :: t).take batchSize).Disjoint ((a :: t).drop batchSize) :=
        List.disjoint_take_drop hnd (le_refl batchSize)
      have hdlen : ((a :: t).drop batchSize).length ≤ m := by
        rw [List.length_drop, List.length_cons]
        rw [List.length_cons] at h
        simp only [batchSize]
        omega
      simp only [runBatches]
      by_cases hcase : j < batchSize
      · have hjb : j < ((a :: t).take batchSize).length := by
          rw [List.length_take]
          exact lt_min hcase hj
        have hel : ((a :: t).take batchSize)[j] = (a :: t)[j] := List.getElem_take _
        have hmem : (a :: t)[j] ∈ (a :: t).take batchSize := by
          rw [← hel]
          exact List.getElem_mem hjb
        have hnotr : (a :: t)[j] ∉ (a :: t).drop batchSize := fun hc => hdisj hmem hc
        rw [runBatches_get_not_mem f _ m _ _ _ hdlen hnotr, ← hel]
        exact applyBatch_get f _ acc i j hjb hnb
      · have hjr : j - batchSize < ((a :: t).drop batchSize).length := by
          rw [List.length_drop]
          omega
        have hel : ((a :: t).drop batchSize)[j - batchSize] = (a :: t)[j] := by
          rw [List.getElem_drop]
          congr 1
          omega
        rw [← hel, ih _ hdlen hnr _ _ (j - batchSize) hjr,
          show i + batchSize + (j - batchSize) = i + j from by omega]
        have hmemd : ((a :: t).drop batchSize)[j - batchSize] ∈ (a :: t).drop batchSize :=
          List.getElem_mem hjr
        have hnott : ((a :: t).drop batchSize)[j - batchSize] ∉ (a :: t).take batchSize :=
          fun hc => hdisj hc hmemd
        rw [applyBatch_get_not_mem f _ _ _ _ hnott]

/-- C6: batched fetch of featured users.  A run over N references
executes exactly ceil(N/10) batch stages, and (on a duplicate-free
input list) the login at input position j is mapped to exactly its own
settled fetch result: a failed fetch contributes no entry and does not
disturb any sibling entry, and results are attached in input order. -/
theorem batched_fetch_correct (cs : List String)
    (ub : Nat → Nat → AttemptOutcome GitHubUserProfile) :
    (runBatches [] cs (fun k => fetchGitHubUser (ub k)) 0).2 = (cs.length + 9) / 10 ∧
    (cs.Nodup → ∀ (j : Nat) (hj : j < cs.length),
      jsGet (runBatches [] cs (fun k => fetchGitHubUser (ub k)) 0).1 cs[j] =
        fetchGitHubUser (ub j)) := by
  constructor
  · exact runBatches_count _ cs.length cs [] 0 (le_refl _)
  · intro hnd j hj
    rw [runBatches_get _ cs.length cs (le_refl _) hnd [] 0 j hj]
    simp only [Nat.zero_add]
    rcases hfj : fetchGitHubUser (ub j) with _ | p <;> simp [hfj, jsGet]

/-- C6 witness: 12 sample references run in ceil(12/10) = 2 stages, and
the reference at position 3 (whose fetch always rejects) is mapped to
its own fetch result. -/
theorem batched_fetch_correct_witness :
    (runBatches [] sampleNames (fun k => fetchGitHubUser (sampleUserBehavior k)) 0).2 =
      (sampleNames.length + 9) / 10 ∧
    jsGet (runBatches [] sampleNames (fun k => fetchGitHubUser (sampleUserBehavior k)) 0).1
      (sampleNames.get ⟨3, by decide⟩) = fetchGitHubUser (sampleUserBehavior 3) := by
  constructor
  · exact (batched_fetch_correct sampleNames sampleUserBehavior).1
  · exact (batched_fetch_correct sampleNames sampleUserBehavior).2 (by decide) 3 (by decide)

/-- C8: snapshot key invariant.  When the previous snapshot only holds
(non-null) entries for featured logins — as every snapshot produced by
this script does — the merged githubUsers mapping has an entry for a
login exactly when that login is featured and either its fetch
succeeded in this run or the previous snapshot held a profile for it;
in particular no key outside the featured list appears. -/
theorem snapshot_keys_invariant (logins : List String)
    (ub : Nat → Nat → AttemptOutcome GitHubUserProfile)
    (oldUsers : List (String × Option GitHubUserProfile))
    (hnd : logins.Nodup) (hold : (jsKeys oldUsers).Nodup)
    (hsub : ∀ k p, jsGet oldUsers k = some (some p) → k ∈ logins) (k : String) :
    (jsGet (mergeGithubUsers
        (runBatches [] logins (fun j => fetchGitHubUser (ub j)) 0).1 oldUsers) k).isSome ↔
      (k ∈ logins ∧
        ((∃ j, ∃ hj : j < logins.length, logins[j] = k ∧
            (fetchGitHubUser (ub j)).isSome) ∨
         (∃ p, jsGet oldUsers k = some (some p)))) := by
  have husersA : k ∉ logins →
      jsGet (runBatches [] logins (fun j => fetchGitHubUser (ub j)) 0).1 k = none := by
    intro hk
    rw [runBatches_get_not_mem _ k logins.length logins [] 0 (le_refl _) hk]
    rfl
  have husersB : ∀ (j : Nat) (hj : j < logins.length),
      jsGet (runBatches [] logins (fun j2 => fetchGitHubUser (ub j2)) 0).1 logins[j] =
        fetchGitHubUser (ub j) := by
    intro j hj
    rw [runBatches_get _ logins.length logins (le_refl _) hnd [] 0 j hj]
    simp only [Nat.zero_add]
    rcases hfj : fetchGitHubUser (ub j) with _ | p <;> simp [hfj, jsGet]
  rw [mergeGithubUsers_get oldUsers _ hold k]
  constructor
  · intro h
    rcases hu : jsGet (runBatches [] logins (fun j => fetchGitHubUser (ub j)) 0).1 k
      with _ | v
    · rw [hu] at h
      rcases ho : jsGet oldUsers k with _ | w
      · rw [ho] at h
        simp [Option.or] at h
      · rcases w with _ | p
        · rw [ho] at h
          simp [Option.or] at h
        · exact ⟨hsub k p ho, Or.inr ⟨p, rfl⟩⟩
    · have hk : k ∈ logins := by
        by_contra hnk
        rw [husersA hnk] at hu
        exact Option.noConfusion hu
      obtain ⟨j, hj, hjk⟩ := List.mem_iff_getElem.mp hk
      refine ⟨hk, Or.inl ⟨j, hj, hjk, ?_⟩⟩
      have hB := husersB j hj
      rw [hjk] at hB
      rw [← hB, hu]
      rfl
  · rintro ⟨hk, hcase⟩
    rcases hcase with ⟨j, hj, hjk, hsome⟩ | ⟨p, hp⟩
    · have hB := husersB j hj
      rw [hjk] at hB
      rw [hB]
      rcases hq : fetchGitHubUser (ub j) with _ | q
      · rw [hq] at hsome
        exact absurd hsome (by simp)
      · rfl
    · rcases hu : jsGet (runBatches [] logins (fun j => fetchGitHubUser (ub j)) 0).1 k
        with _ | v
      · rw [hp]
        rfl
      · rfl

/-- C8 witness: 12 featured sample logins, an old snapshot holding only
the featured login c, queried at c. -/
theorem snapshot_keys_invariant_witness :
    (jsGet (mergeGithubUsers
        (runBatches [] sampleNames (fun j => fetchGitHubUser (sampleUserBehavior j)) 0).1
        [("c", some sampleProfileB)]) "c").isSome ↔
      ("c" ∈ sampleNames ∧
        ((∃ j, ∃ hj : j < sampleNames.length, sampleNames[j] = "c" ∧
            (fetchGitHubUser (sampleUserBehavior j)).isSome) ∨
         (∃ p, jsGet [("c", some sampleProfileB)] "c" = some (some p)))) :=
  snapshot_keys_invariant sampleNames sampleUserBehavior [("c", some sampleProfileB)]
    (by decide) (by decide)
    (fun k p h => by
      by_cases hk : "c" = k
      · rw [← hk]
        decide
      · simp [jsGet, hk] at h)
    "c"
